import Mathlib

/-!
Verification of the git-ai-commit generation pipeline core.

This file shallowly embeds the parts of the repository needed by the
frozen claims:

* `src/core/registry.py` — the component registry (`Registry.register`,
  `Registry.get`, `Registry.create`);
* `src/core/llm/providers/claude.py` — payload construction
  (`_build_payload`) and the streaming decoder (`_process_stream`);
* `src/core/llm/providers/openai.py` — the streaming decoder
  (`_process_stream`);
* `src/core/pipeline.py` — context merging (`_collect_context`) and the
  cached raw-message generation (`_generate_raw_message`);
* `src/utils/cache.py` — the file-based response cache (`get`, `set`,
  `_get_key`, `is_enabled`).

Python dictionaries are modelled as association lists preserving
insertion order; Python exceptions as an explicit `PyErr` type threaded
through `Except`; JSON values (the results of `json.loads` and the
payload dictionaries) as the inductive `JVal`.  External library calls
(`json.loads`, `hashlib.sha256`, `time.time`, the filesystem behind the
cache directory) are modelled as explicit parameters or abstract pure
functions, as noted at each definition.
-/

/-- JSON-ish Python values: the results of `json.loads`, the values of
configuration `parameters`, and the values collector producers return. -/
inductive JVal where
  | jnull : JVal
  | jbool : Bool → JVal
  | jnum : Int → JVal
  | jstr : String → JVal
  | jarr : List JVal → JVal
  | jobj : List (String × JVal) → JVal

/-- Python truthiness of a value (`if value:`): `None`, `False`, `0`,
`""`, `[]` and the empty dict are falsy, everything else truthy. -/
def JVal.truthy : JVal → Bool
  | .jnull => false
  | .jbool b => b
  | .jnum n => decide (n ≠ 0)
  | .jstr s => decide (s ≠ "")
  | .jarr xs => !xs.isEmpty
  | .jobj fs => !fs.isEmpty

/-- Association-list lookup, modelling `d[k]` reads / `dict.get` on a
Python dict represented as its ordered item list. -/
def alookup {α : Type} (k : String) : List (String × α) → Option α
  | [] => none
  | (k', v) :: rest => if k' = k then some v else alookup k rest

/-- Python `dict[k] = v`: replace in place if the key is present
(keeping its position), append otherwise. -/
def dictSet {α : Type} (d : List (String × α)) (k : String) (v : α) :
    List (String × α) :=
  if (alookup k d).isSome then
    d.map (fun p => if p.1 = k then (k, v) else p)
  else
    d ++ [(k, v)]

/-- Python `d.update(u)`: fold the updates over the dict in item order. -/
def dictUpdate {α : Type} (d u : List (String × α)) : List (String × α) :=
  u.foldl (fun acc kv => dictSet acc kv.1 kv.2) d

/-- Python exceptions relevant to the embedded code.

The constructor `instantiationError` is *Modelled from the spec*: the
spec names an `InstantiationError` wrapper for constructor failures in
`Registry.create`, but no such class exists anywhere under `src/`
(`src/utils/errors.py` defines only `AICommitException`,
`CollectorError`, `ProviderError`, `FormatterError`, `ConfigError`).
It is included so that the spec's claimed wrapping behaviour can be
stated and compared with what the code does. -/
inductive PyErr where
  | valueError : String → PyErr
  | keyError : String → PyErr
  | attributeError : String → PyErr
  | typeError : String → PyErr
  | indexError : PyErr
  | providerError : String → PyErr
  | instantiationError : PyErr → PyErr
deriving DecidableEq

/-- Whether an error is the spec's `InstantiationError` wrapper. -/
def PyErr.isInstWrap : PyErr → Bool
  | .instantiationError _ => true
  | _ => false

/-- Whether a computation result is an `InstantiationError` failure. -/
def errIsInstWrap {β : Type} : Except PyErr β → Bool
  | .error e => e.isInstWrap
  | .ok _ => false

/-!
## Registry (`src/core/registry.py`)

`Registry._components` is a Python dict from name to class; we model it
as an ordered association list over an arbitrary component type `C`
(classes are opaque here; for `create` the component type is a factory
function).  `register` is the decorator body: it raises `ValueError`
*before* mutating when the name is taken, so the failed call leaves the
table untouched.  `get` raises `KeyError` for unknown names.  `create`
is `self.get(name)` followed by invoking the class; it catches nothing,
so both the `KeyError` and any constructor failure propagate as-is.
-/

structure Registry (C : Type) where
  name : String
  components : List (String × C)

/-- `Registry.register(name)`'s decorator applied to `cls`: raises
`ValueError` when the name is already present (mutating nothing),
otherwise inserts the class.  Returned as (outcome, post-state). -/
def Registry.registerDec {C : Type} (r : Registry C) (name : String)
    (cls : C) : Except PyErr Unit × Registry C :=
  if (alookup name r.components).isSome then
    (.error (.valueError name), r)
  else
    (.ok (), { r with components := dictSet r.components name cls })

/-- `Registry.get(name)`: the stored class, or `KeyError`. -/
def Registry.getC {C : Type} (r : Registry C) (name : String) :
    Except PyErr C :=
  match alookup name r.components with
  | some c => .ok c
  | none => .error (.keyError name)

/-- `Registry.create(name, *args)`: `component_class = self.get(name);
return component_class(*args)`.  The component type is a factory from
arguments to `Except PyErr β`; no exception handling wraps either the
lookup or the factory invocation. -/
def Registry.createF {α β : Type} (r : Registry (α → Except PyErr β))
    (name : String) (args : α) : Except PyErr β :=
  match r.getC name with
  | .error e => .error e
  | .ok f => f args

/-- `__iter__` / `keys()`: the registered names, in insertion order. -/
def Registry.keyList {C : Type} (r : Registry C) : List String :=
  r.components.map Prod.fst

/-!
## Claude payload construction (`src/core/llm/providers/claude.py`)

`ModelConfig` is the pydantic model from `src/config/models.py`;
`parameters` is a dict of extra request parameters.  `_build_payload`
builds the base payload dict (with the hard-coded `max_tokens: 4096`
default Anthropic requires) and then runs
`payload.update(self.config.parameters)` — a plain `dict.update`, which
replaces existing keys.
-/

structure ModelConfig where
  provider : String := "openai"
  name : String := "gpt-4o-mini"
  apiKey : Option String := none
  baseUrl : Option String := none
  timeoutSec : Int := 20
  stream : Bool := false
  parameters : List (String × JVal) := []

/-- `ClaudeProvider._build_payload(prompt, stream)`. -/
def buildClaudePayload (cfg : ModelConfig) (prompt : String)
    (stream : Bool) : List (String × JVal) :=
  dictUpdate
    [("model", .jstr cfg.name),
     ("messages", .jarr [.jobj [("role", .jstr "user"),
                                ("content", .jstr prompt)]]),
     ("max_tokens", .jnum 4096),
     ("stream", .jbool stream)]
    cfg.parameters

/-!
## Streaming decoders

`_process_stream` in both providers iterates the response lines,
extracts the `data:` payload, parses it with `json.loads`, and
dispatches on the parsed chunk.  `json.loads` is an external library
call; we model it as an explicit argument
`loads : String → Option JVal` (`none` = `json.JSONDecodeError`).

Both loop bodies wrap the parse-and-dispatch in
`try: ... except (json.JSONDecodeError, IndexError): continue`, so only
those two exception kinds are swallowed; any other exception raised
while inspecting the chunk (for example `AttributeError` from calling
`.get` on a non-dict, or `TypeError` from subscripting a non-sequence)
escapes the generator and ends the stream with an error after the
fragments already yielded.
-/

/-- Python `chunk.get(k)` on an arbitrary value: field lookup on a dict,
`AttributeError` on anything else. -/
def pyGet (j : JVal) (k : String) : Except PyErr (Option JVal) :=
  match j with
  | .jobj fs => .ok (alookup k fs)
  | _ => .error (.attributeError "get")

/-- Python `chunk.get(k, d)` with a default: the default is used only
when the key is absent (a stored `None` is returned as `None`). -/
def pyGetD (j : JVal) (k : String) (d : JVal) : Except PyErr JVal :=
  match j with
  | .jobj fs => .ok ((alookup k fs).getD d)
  | _ => .error (.attributeError "get")

/-- Python `x[0]`: head of a list (`IndexError` when empty), first
character of a string (`IndexError` when empty), `KeyError` on a dict
(our keys are strings, never the integer `0`), `TypeError` otherwise. -/
def pyIndexZero (j : JVal) : Except PyErr JVal :=
  match j with
  | .jarr [] => .error .indexError
  | .jarr (x :: _) => .ok x
  | .jstr s => if s = "" then .error .indexError else .ok (.jstr ⟨s.data.take 1⟩)
  | .jobj _ => .error (.keyError "0")
  | _ => .error (.typeError "subscript")

/-- Python `opt == "lit"` where `opt` is `chunk.get(...)`: equality
holds only for an equal string; `None` or any other type compares
unequal. -/
def optEqStr (o : Option JVal) (s : String) : Bool :=
  match o with
  | some (.jstr t) => t = s
  | _ => false

/-- What a decoder does with one input line. -/
inductive StreamClass where
  | skip : StreamClass
  | emit : JVal → StreamClass
  | stop : StreamClass
  | crash : PyErr → StreamClass

/-- The whitespace characters Python `str.strip()` removes, restricted
to the ASCII control whitespace that can occur in an HTTP event stream. -/
def isPySpace (c : Char) : Bool :=
  c = ' ' || c = '\t' || c = '\n' || c = '\r' || c = '\x0b' || c = '\x0c'

/-- Python `line.strip()`: drop leading and trailing whitespace
(modelled over the code-point list underlying the string). -/
def pyStrip (s : String) : String :=
  ⟨((s.data.dropWhile isPySpace).reverse.dropWhile isPySpace).reverse⟩

/-- Python `s.startswith(p)`. -/
def pyStartsWith (s p : String) : Bool :=
  p.data.isPrefixOf s.data

/-- Python `s[n:]`: drop the first `n` code points. -/
def pyDrop (s : String) (n : Nat) : String :=
  ⟨s.data.drop n⟩

/-- The Claude loop body for one line (claude.py `_process_stream`):
strip the line, require the `data:` marker, strip the payload, parse
it, then dispatch on `chunk.get("type")`: a `content_block_delta` with a
`text_delta` delta yields its truthy `text`, `message_stop` ends the
stream, anything else is skipped; a `json.JSONDecodeError` is skipped,
while an `AttributeError` from a non-dict chunk or delta escapes. -/
def claudeLineStep (loads : String → Option JVal) (line : String) :
    StreamClass :=
  let l := pyStrip line
  if !(pyStartsWith l "data:") then .skip
  else
    let dataStr := pyStrip (pyDrop l 5)
    if dataStr = "" then .skip
    else
      match loads dataStr with
      | none => .skip
      | some chunk =>
        match pyGet chunk "type" with
        | .error e => .crash e
        | .ok chunkType =>
          if optEqStr chunkType "content_block_delta" then
            match pyGetD chunk "delta" (.jobj []) with
            | .error e => .crash e
            | .ok delta =>
              match pyGet delta "type" with
              | .error e => .crash e
              | .ok deltaType =>
                if optEqStr deltaType "text_delta" then
                  match pyGet delta "text" with
                  | .error e => .crash e
                  | .ok content =>
                    match content with
                    | some c => if c.truthy then .emit c else .skip
                    | none => .skip
                else .skip
          else if optEqStr chunkType "message_stop" then .stop
          else .skip

/-- How a decoding run ends: explicit terminal frame, input exhausted
without one, or an uncaught exception. -/
inductive StreamOutcome where
  | terminal : StreamOutcome
  | exhausted : StreamOutcome
  | crashed : PyErr → StreamOutcome
deriving DecidableEq

/-- `ClaudeProvider._process_stream`: run the loop body over the lines,
collecting yielded fragments in order until `message_stop`, the end of
input, or an uncaught exception. -/
def claudeProcessStream (loads : String → Option JVal) :
    List String → List JVal × StreamOutcome
  | [] => ([], .exhausted)
  | line :: rest =>
    match claudeLineStep loads line with
    | .skip => claudeProcessStream loads rest
    | .emit v =>
      let r := claudeProcessStream loads rest
      (v :: r.1, r.2)
    | .stop => ([], .terminal)
    | .crash e => ([], .crashed e)

/-- The OpenAI loop body for one line (openai.py `_process_stream`):
require the `data:` marker on the raw line, strip the payload, treat
`[DONE]` as terminal, parse, then read
`chunk.get("choices", [{}])[0].get("delta", {}).get("content")` and
yield it when truthy; `json.JSONDecodeError` and `IndexError` are
skipped, other exceptions escape. -/
def openaiLineStep (loads : String → Option JVal) (line : String) :
    StreamClass :=
  if !(pyStartsWith line "data:") then .skip
  else
    let chunkStr := pyStrip (pyDrop line 5)
    if chunkStr = "[DONE]" then .stop
    else if chunkStr = "" then .skip
    else
      match loads chunkStr with
      | none => .skip
      | some chunk =>
        match pyGetD chunk "choices" (.jarr [.jobj []]) with
        | .error e => .crash e
        | .ok choices =>
          match pyIndexZero choices with
          | .error .indexError => .skip
          | .error e => .crash e
          | .ok choice =>
            match pyGetD choice "delta" (.jobj []) with
            | .error e => .crash e
            | .ok delta =>
              match pyGet delta "content" with
              | .error e => .crash e
              | .ok content =>
                match content with
                | some c => if c.truthy then .emit c else .skip
                | none => .skip

/-- `OpenAIProvider._process_stream`: run the loop body over the lines,
collecting yielded fragments in order until `[DONE]`, the end of input,
or an uncaught exception. -/
def openaiProcessStream (loads : String → Option JVal) :
    List String → List JVal × StreamOutcome
  | [] => ([], .exhausted)
  | line :: rest =>
    match openaiLineStep loads line with
    | .skip => openaiProcessStream loads rest
    | .emit v =>
      let r := openaiProcessStream loads rest
      (v :: r.1, r.2)
    | .stop => ([], .terminal)
    | .crash e => ([], .crashed e)

/-- A line the decoder passes over or yields from (neither terminal nor
crashing). -/
def StreamClass.isSkipOrEmit : StreamClass → Bool
  | .skip => true
  | .emit _ => true
  | _ => false

/-- Whether the loop body recognizes the line as the terminal frame. -/
def StreamClass.isStop : StreamClass → Bool
  | .stop => true
  | _ => false

/-- The fragment a line contributes, if any. -/
def StreamClass.emitted : StreamClass → Option JVal
  | .emit v => some v
  | _ => none

/-!
## Response cache (`src/utils/cache.py`)

The cache stores one JSON file per key under a directory; we model the
directory as an association list from key to record.  `time.time()` is
an external call, modelled as an explicit `now : Int` argument.
`hashlib.sha256(...).hexdigest()` is an external library function; the
embedded code only ever relies on it being a function of the content
string (equal contents give equal keys), so it is modelled as an
abstract key-derivation on strings.  The cache is enabled iff the
configured `ttl_sec` is positive (`is_enabled`).
-/

/-- Model of `hashlib.sha256(content.encode("utf-8")).hexdigest()` as
used by `Cache._get_key`: an abstract deterministic key-derivation
function on strings (only its functionality — equal inputs, equal
digests — is relied on by the code or used by any proof). -/
def sha256Hex (s : String) : String := s

/-- `Cache._get_key(content)`. -/
def cacheKey (content : String) : String := sha256Hex content

/-- One on-disk cache record: `{"timestamp": ..., "value": ...}` as
written by `Cache.set`. -/
structure CacheRecord where
  timestamp : Int
  value : String
deriving DecidableEq

/-- The cache directory: one record per key (file name). -/
abbrev CacheStore := List (String × CacheRecord)

/-- `cache_file.unlink()`: remove the record stored under `key`. -/
def storeErase (key : String) (store : CacheStore) : CacheStore :=
  store.filter (fun p => p.1 ≠ key)

/-- `Cache.is_enabled()`. -/
def cacheEnabled (ttl : Int) : Bool := decide (0 < ttl)

/-- `Cache.get(content)`: disabled caches answer nothing; otherwise
look up the record for the content digest; a record older than the TTL
is deleted and reported as a miss; a fresh record's value is returned.
Result is (returned value, post-state of the directory). -/
def cacheGet (ttl now : Int) (store : CacheStore) (content : String) :
    Option String × CacheStore :=
  if !cacheEnabled ttl then (none, store)
  else
    let key := cacheKey content
    match alookup key store with
    | none => (none, store)
    | some rec =>
      if now - rec.timestamp > ttl then (none, storeErase key store)
      else (some rec.value, store)

/-- `Cache.set(content, value)`: disabled caches write nothing;
otherwise write (overwriting any existing record for the digest) a
record carrying the current time and the value. -/
def cacheSet (ttl now : Int) (store : CacheStore) (content value : String) :
    CacheStore :=
  if !cacheEnabled ttl then store
  else dictSet store (cacheKey content) ⟨now, value⟩

/-!
## Pipeline (`src/core/pipeline.py`)
-/

/-- `FileChange` from `src/core/contracts/models.py`. -/
structure FileChange where
  path : String
  diff : String
  language : Option String := none
  functions : Option (List String) := none

/-- The two shapes `provider.generate` can return: a plain string
(non-streaming) or an async iterable of chunks (streaming). -/
inductive ProviderResult where
  | str : String → ProviderResult
  | streamSeq : List String → ProviderResult
deriving DecidableEq

/-- Python `sorted` on strings: ascending sort by the default
lexicographic (code-point) order.  (Python uses a stable merge sort;
any sort produces the same list here because sorted permutations of a
linearly ordered list are unique.) -/
def sortStrings (l : List String) : List String :=
  List.insertionSort (fun a b : String => a ≤ b) l

/-- The deterministic cache-key content built by
`_generate_raw_message`:
`"\n---\n".join(sorted(f.diff for f in context.files))`. -/
def diffContent (files : List FileChange) : String :=
  String.intercalate "\n---\n" (sortStrings (files.map (fun f => f.diff)))

/-- Python truthiness of `Optional[str]` (`if cached_message:`). -/
def strOptTruthy (o : Option String) : Bool :=
  match o with
  | some s => decide (s ≠ "")
  | none => false

/-- Observable outcome of one `_generate_raw_message` run: the returned
value, the cache directory afterwards, the digests passed to
`cache.get` / written by `cache.set`, and the `stream` flags of the
provider invocations made. -/
structure RawGenOut where
  result : ProviderResult
  store : CacheStore
  reads : List String
  writes : List String
  calls : List Bool
deriving DecidableEq

/-- `CommitMessageGenerator._generate_raw_message(context, stream)`.

`cachePresent` models `self.cache is not None` (the config's
`cache.enabled` flag); `ttl` its `ttl_sec`; `provider` models
`_call_provider` as a function of the `stream` flag; `files` is
`context.files`.  Streaming runs, runs without a cache, and runs with
an empty file list call the provider directly; otherwise the sorted
diff digest is consulted, a truthy cached string is returned as a hit,
and on a miss the provider's result is cached only when it is a plain
string. -/
def generateRawMessage (cachePresent : Bool) (ttl now : Int)
    (store : CacheStore) (provider : Bool → ProviderResult)
    (files : List FileChange) (stream : Bool) : RawGenOut :=
  if stream || !cachePresent || !cacheEnabled ttl then
    ⟨provider stream, store, [], [], [stream]⟩
  else if files.isEmpty then
    ⟨provider false, store, [], [], [false]⟩
  else
    let content := diffContent files
    let key := cacheKey content
    let got := cacheGet ttl now store content
    if strOptTruthy got.1 then
      ⟨.str (got.1.getD ""), got.2, [key], [], []⟩
    else
      match provider false with
      | .str s =>
        ⟨.str s, cacheSet ttl now got.2 content s, [key], [key], [false]⟩
      | .streamSeq cs =>
        ⟨.streamSeq cs, got.2, [key], [], [false]⟩

/-!
## Context merge (`CommitMessageGenerator._collect_context`)

After gathering each collector's mapping (in configured order), the
merge loop is:

    for data in results:
        for key, value in data.items():
            if value:
                combined_data[key] = value
-/

/-- The inner fold over one producer's items. -/
def mergeOne (acc : List (String × JVal)) (data : List (String × JVal)) :
    List (String × JVal) :=
  data.foldl
    (fun acc kv => if kv.2.truthy then dictSet acc kv.1 kv.2 else acc)
    acc

/-- The merge of all producer outputs, in configured order, into the
combined context data. -/
def mergeResults (results : List (List (String × JVal))) :
    List (String × JVal) :=
  results.foldl mergeOne []

/-- The value of the last pair with the given key and a truthy value in
an item list (none when there is no such pair). -/
def lastTruthyPair (k : String) : List (String × JVal) → Option JVal
  | [] => none
  | (k', v) :: rest =>
    match lastTruthyPair k rest with
    | some w => some w
    | none => if k' = k ∧ v.truthy then some v else none

/-- Keep a looked-up value only when it is truthy. -/
def optTruthy (o : Option JVal) : Option JVal :=
  match o with
  | some v => if v.truthy then some v else none
  | none => none

/-- The (unique, by per-producer key uniqueness) non-empty value of the
last producer that returned a non-empty value for the key. -/
def lastTruthyAcross (k : String) :
    List (List (String × JVal)) → Option JVal
  | [] => none
  | data :: rest =>
    match lastTruthyAcross k rest with
    | some w => some w
    | none => optTruthy (alookup k data)

/-!
## Association-list lemmas
-/

theorem alookup_append_right {α : Type} (k : String) (d e : List (String × α))
    (h : alookup k d = none) : alookup k (d ++ e) = alookup k e := by
  induction d with
  | nil => rfl
  | cons p rest ih =>
    obtain ⟨k', v⟩ := p
    by_cases hk : k' = k
    · simp [alookup, hk] at h
    · simp only [alookup, List.cons_append, hk, if_false] at h ⊢
      exact ih h

theorem alookup_map_replace {α : Type} (k : String) (v : α)
    (d : List (String × α)) (h : (alookup k d).isSome = true) :
    alookup k (d.map (fun p => if p.1 = k then (k, v) else p)) = some v := by
  induction d with
  | nil => simp [alookup] at h
  | cons p rest ih =>
    obtain ⟨k', w⟩ := p
    simp only [List.map_cons]
    by_cases hk : k' = k
    · rw [if_pos hk]
      simp [alookup]
    · rw [if_neg hk]
      simp only [alookup, hk, if_false] at h ⊢
      exact ih h

theorem alookup_map_replace_ne {α : Type} (k k' : String) (v : α)
    (h : k' ≠ k) (d : List (String × α)) :
    alookup k (d.map (fun p => if p.1 = k' then (k', v) else p))
      = alookup k d := by
  induction d with
  | nil => rfl
  | cons p rest ih =>
    obtain ⟨k'', w⟩ := p
    simp only [List.map_cons]
    by_cases hk2 : k'' = k'
    · rw [if_pos hk2]
      have hc : ¬ k'' = k := by rw [hk2]; exact h
      simp only [alookup, if_neg h, if_neg hc]
      exact ih
    · rw [if_neg hk2]
      by_cases hk : k'' = k
      · simp only [alookup, if_pos hk]
      · simp only [alookup, if_neg hk]
        exact ih

theorem alookup_append_single_ne {α : Type} (k k' : String) (v : α)
    (h : k' ≠ k) (d : List (String × α)) :
    alookup k (d ++ [(k', v)]) = alookup k d := by
  induction d with
  | nil => simp [alookup, h]
  | cons p rest ih =>
    obtain ⟨k'', w⟩ := p
    by_cases hk : k'' = k
    · simp [alookup, hk]
    · simp [alookup, hk, ih]

theorem alookup_dictSet_self {α : Type} (d : List (String × α)) (k : String)
    (v : α) : alookup k (dictSet d k v) = some v := by
  unfold dictSet
  by_cases h : (alookup k d).isSome = true
  · rw [if_pos h]
    exact alookup_map_replace k v d h
  · rw [if_neg h]
    have hn : alookup k d = none := by
      cases he : alookup k d
      · rfl
      · rw [he] at h; simp at h
    rw [alookup_append_right k d _ hn]
    simp [alookup]

theorem alookup_dictSet_ne {α : Type} (d : List (String × α)) (k k' : String)
    (v : α) (h : k' ≠ k) : alookup k (dictSet d k' v) = alookup k d := by
  unfold dictSet
  by_cases hs : (alookup k' d).isSome = true
  · rw [if_pos hs]
    exact alookup_map_replace_ne k k' v h d
  · rw [if_neg hs]
    exact alookup_append_single_ne k k' v h d

/-!
## Claim C1 — `max_tokens` versus `extra_parameters`

`ClaudeProvider._build_payload` injects `max_tokens: 4096` into the
base payload, and its inline comment asserts the subsequent merge
ensures the key `is not overwritten if present` in the extra
parameters.  `dict.update`, however, replaces existing keys, so an
extra-parameters entry for `max_tokens` does override the reserved
default.  The theorem evaluates the payload builder at such a
configuration.
-/

/-- A Claude configuration whose extra parameters carry their own
`max_tokens`, the failing input for claim C1. -/
def claudeOverrideCfg : ModelConfig :=
  { provider := "claude", name := "claude-3-opus-20240229",
    apiKey := some "k", parameters := [("max_tokens", .jnum 100)] }

/-- C1: the claim says an `extra_parameters` value for the reserved
`max_tokens` key never overrides the backend-injected default of 4096.
Evaluating `_build_payload` with `parameters = {"max_tokens": 100}`
shows the payload carries 100, not 4096 — the extra parameter wins —
while with empty extra parameters the injected default 4096 is present.
The code contradicts its own inline comment, so this is a code bug, not
a spec error. -/
theorem claude_payload_max_tokens_overridden :
    alookup "max_tokens" (buildClaudePayload claudeOverrideCfg "hello" false)
      = some (.jnum 100) ∧
    alookup "max_tokens" (buildClaudePayload claudeOverrideCfg "hello" false)
      ≠ some (.jnum 4096) ∧
    alookup "max_tokens"
      (buildClaudePayload { claudeOverrideCfg with parameters := [] }
        "hello" false) = some (.jnum 4096) := by
  refine ⟨rfl, fun h => ?_, rfl⟩
  have h1 : (some (JVal.jnum 100) : Option JVal) = some (.jnum 4096) := by
    have h0 : alookup "max_tokens"
        (buildClaudePayload claudeOverrideCfg "hello" false)
        = some (.jnum 100) := rfl
    exact h0.symm.trans h
  injection h1 with h2
  injection h2 with h3
  exact absurd h3 (by decide)

/-!
## Claim C2 — `Registry.create` and constructor failures

The spec claims `create` wraps any constructor failure in an
`InstantiationError` carrying the original cause.  The code has no such
class and no exception handling in `create`; a failing factory's
exception propagates unwrapped.
-/

/-- A registry with one registered factory whose invocation raises. -/
def failingFactoryReg : Registry (Unit → Except PyErr Unit) :=
  ⟨"provider", [("boom", fun _ => .error (.valueError "ctorfail"))]⟩

/-- C2 counterexample: for the registered name `boom`, whose factory
raises a `ValueError`, `create` returns that raw `ValueError` and not
an `InstantiationError` wrapper — the claimed wrapping does not happen. -/
theorem create_boom_not_wrapped :
    Registry.createF failingFactoryReg "boom" ()
      = .error (.valueError "ctorfail") ∧
    errIsInstWrap (Registry.createF failingFactoryReg "boom" ()) = false :=
  ⟨rfl, rfl⟩

/-- C2 (amended): for every registered name whose factory raises when
invoked, `create` propagates the factory's exception itself, unwrapped —
no `InstantiationError` (which does not exist in the code) is involved. -/
theorem create_propagates_factory_error {α β : Type}
    (r : Registry (α → Except PyErr β)) (nm : String)
    (f : α → Except PyErr β) (args : α) (e : PyErr)
    (hf : alookup nm r.components = some f)
    (he : f args = .error e) :
    Registry.createF r nm args = .error e := by
  unfold Registry.createF Registry.getC
  rw [hf]
  exact he

/-- Witness for C2's amended theorem at the concrete failing registry. -/
theorem create_propagates_factory_error_witness :
    alookup "boom" failingFactoryReg.components
        = some (fun _ => .error (.valueError "ctorfail")) ∧
    Registry.createF failingFactoryReg "boom" ()
        = .error (.valueError "ctorfail") :=
  ⟨rfl, create_propagates_factory_error failingFactoryReg "boom"
    (fun _ => .error (.valueError "ctorfail")) () (.valueError "ctorfail")
    rfl rfl⟩

/-!
## Claim C9 — duplicate registration leaves the registry unchanged

`Registry.register` raises `ValueError` before the assignment
`self._components[name] = cls` when the name is taken, so the failed
call mutates nothing.
-/

/-- C9: registering an already-present name fails with the duplicate
error, the registry value is unchanged, `get` still answers the
originally registered class, and the key set is exactly as before. -/
theorem register_duplicate_leaves_registry_unchanged {C : Type}
    (r : Registry C) (nm : String) (cls0 cls : C)
    (h : alookup nm r.components = some cls0) :
    (r.registerDec nm cls).1 = .error (.valueError nm) ∧
    (r.registerDec nm cls).2 = r ∧
    ((r.registerDec nm cls).2).getC nm = .ok cls0 ∧
    ((r.registerDec nm cls).2).keyList = r.keyList := by
  have hs : (alookup nm r.components).isSome = true := by rw [h]; rfl
  unfold Registry.registerDec
  rw [if_pos hs]
  exact ⟨rfl, rfl, by simp [Registry.getC, h], rfl⟩

/-- A small concrete registry for the C9 witness. -/
def demoRegistry : Registry Nat := ⟨"collector", [("diff", 1)]⟩

/-- Witness for C9 at a concrete registry holding `diff`. -/
theorem register_duplicate_witness :
    (demoRegistry.registerDec "diff" 2).1 = .error (.valueError "diff") ∧
    (demoRegistry.registerDec "diff" 2).2 = demoRegistry ∧
    ((demoRegistry.registerDec "diff" 2).2).getC "diff" = .ok 1 ∧
    ((demoRegistry.registerDec "diff" 2).2).keyList = demoRegistry.keyList :=
  register_duplicate_leaves_registry_unchanged demoRegistry "diff" 1 2 rfl

/-!
## Claims C6–C8 — cache round-trip, expiry, key stability
-/

/-- C6: with the cache enabled (positive TTL), `set(content, v)`
followed immediately by `get(content)` (same clock reading, so no time
has passed the TTL) returns exactly the stored value. -/
theorem cache_set_get_roundtrip (ttl now : Int) (store : CacheStore)
    (content v : String) (h : 0 < ttl) :
    (cacheGet ttl now (cacheSet ttl now store content v) content).1
      = some v := by
  have he : cacheEnabled ttl = true := by
    unfold cacheEnabled
    exact decide_eq_true h
  have hnot : ¬ ttl < 0 := by omega
  simp [cacheGet, cacheSet, he, alookup_dictSet_self, hnot]

/-- Witness for C6 at a concrete store, content and TTL. -/
theorem cache_set_get_roundtrip_witness :
    (0 : Int) < 60 ∧
    (cacheGet 60 5 (cacheSet 60 5 [] "diffs" "feat: x") "diffs").1
      = some "feat: x" :=
  ⟨by decide, cache_set_get_roundtrip 60 5 [] "diffs" "feat: x" (by decide)⟩

/-- C7: with the cache enabled, a record older than the TTL is reported
as a miss and deleted from the store as a side effect, and a value is
returned only when `now - created_at ≤ ttl` (and then it is the stored
value). -/
theorem cache_expiry_and_freshness (ttl now : Int) (store : CacheStore)
    (content : String) (entry : CacheRecord) (h : 0 < ttl)
    (hlk : alookup (cacheKey content) store = some entry) :
    (now - entry.timestamp > ttl →
       cacheGet ttl now store content
         = (none, storeErase (cacheKey content) store)) ∧
    (∀ v, (cacheGet ttl now store content).1 = some v →
       now - entry.timestamp ≤ ttl ∧ v = entry.value) := by
  have he : cacheEnabled ttl = true := by
    unfold cacheEnabled
    exact decide_eq_true h
  constructor
  · intro hexp
    simp [cacheGet, he, hlk, hexp]
  · intro v hv
    by_cases hexp : now - entry.timestamp > ttl
    · simp [cacheGet, he, hlk, hexp] at hv
    · simp [cacheGet, he, hlk, hexp] at hv
      exact ⟨by omega, hv.symm⟩

/-- A store holding one record created at time 0 for the C7 witness. -/
def staleStore : CacheStore := [("diffs", ⟨0, "old answer"⟩)]

/-- Witness for C7: at time 100 with TTL 60 the record from time 0 is
expired, so `get` misses and erases it. -/
theorem cache_expiry_witness :
    (0 : Int) < 60 ∧
    alookup (cacheKey "diffs") staleStore = some ⟨0, "old answer"⟩ ∧
    cacheGet 60 100 staleStore "diffs"
      = (none, storeErase (cacheKey "diffs") staleStore) :=
  ⟨by decide, rfl,
   (cache_expiry_and_freshness 60 100 staleStore "diffs" ⟨0, "old answer"⟩
      (by decide) rfl).1 (by decide)⟩

/-- Sorting is invariant under permutation of the input: any two
permutations of the same strings sort to the same list. -/
theorem sortStrings_perm_eq {l1 l2 : List String} (h : l1.Perm l2) :
    sortStrings l1 = sortStrings l2 :=
  List.eq_of_perm_of_sorted
    ((List.perm_insertionSort _ l1).trans
      (h.trans (List.perm_insertionSort _ l2).symm))
    (List.sorted_insertionSort _ l1) (List.sorted_insertionSort _ l2)

/-- C8: two file-change sequences whose diff strings are permutations
of one another produce the same cache key — the canonicalization (sort,
then join, then digest) makes producer ordering irrelevant. -/
theorem cache_key_ignores_diff_order (files1 files2 : List FileChange)
    (h : (files1.map (fun f => f.diff)).Perm (files2.map (fun f => f.diff))) :
    cacheKey (diffContent files1) = cacheKey (diffContent files2) := by
  unfold cacheKey sha256Hex diffContent
  rw [sortStrings_perm_eq h]

/-- Two-file change set, one order. -/
def permFilesA : List FileChange :=
  [⟨"a.py", "dA", none, none⟩, ⟨"b.py", "dB", none, none⟩]

/-- The same change set, opposite order. -/
def permFilesB : List FileChange :=
  [⟨"b.py", "dB", none, none⟩, ⟨"a.py", "dA", none, none⟩]

/-- Witness for C8 at a concrete pair of permuted file lists. -/
theorem cache_key_ignores_diff_order_witness :
    (permFilesA.map (fun f => f.diff)).Perm
        (permFilesB.map (fun f => f.diff)) ∧
    cacheKey (diffContent permFilesA) = cacheKey (diffContent permFilesB) :=
  ⟨List.Perm.swap "dB" "dA" [],
   cache_key_ignores_diff_order permFilesA permFilesB
     (List.Perm.swap "dB" "dA" [])⟩

/-!
## Claim C4 — last-non-empty-value-wins context merge
-/

/-- Proof-internal variant of `lastTruthyAcross` phrased over
`lastTruthyPair` (no per-producer key-uniqueness needed). -/
def lastTruthyAcrossP (k : String) :
    List (List (String × JVal)) → Option JVal
  | [] => none
  | data :: rest =>
    match lastTruthyAcrossP k rest with
    | some w => some w
    | none => lastTruthyPair k data

theorem alookup_mergeOne (k : String) (data : List (String × JVal)) :
    ∀ acc, alookup k (mergeOne acc data)
      = match lastTruthyPair k data with
        | some v => some v
        | none => alookup k acc := by
  induction data with
  | nil => intro acc; rfl
  | cons p rest ih =>
    intro acc
    obtain ⟨k', v⟩ := p
    have hstep : mergeOne acc ((k', v) :: rest)
        = mergeOne (if v.truthy then dictSet acc k' v else acc) rest := rfl
    rw [hstep, ih]
    simp only [lastTruthyPair]
    cases hl : lastTruthyPair k rest with
    | some w => rfl
    | none =>
      by_cases ht : v.truthy = true
      · by_cases hk : k' = k
        · subst hk
          simp [ht, alookup_dictSet_self]
        · simp only [ht, if_true, if_pos ht]
          rw [alookup_dictSet_ne acc k k' v hk]
          simp [hk]
      · simp only [ht]
        simp [ht]

theorem lastTruthyPair_none_of_not_mem (k : String)
    (data : List (String × JVal)) (h : k ∉ data.map Prod.fst) :
    lastTruthyPair k data = none := by
  induction data with
  | nil => rfl
  | cons p rest ih =>
    obtain ⟨k', v⟩ := p
    simp only [List.map_cons, List.mem_cons] at h
    push_neg at h
    obtain ⟨h1, h2⟩ := h
    have hne : ¬ k' = k := fun hc => h1 hc.symm
    simp [lastTruthyPair, ih h2, hne]

theorem lastTruthyPair_eq_of_nodup (k : String)
    (data : List (String × JVal)) (hn : (data.map Prod.fst).Nodup) :
    lastTruthyPair k data = optTruthy (alookup k data) := by
  induction data with
  | nil => rfl
  | cons p rest ih =>
    obtain ⟨k', v⟩ := p
    simp only [List.map_cons, List.nodup_cons] at hn
    obtain ⟨hnotin, hrest⟩ := hn
    by_cases hk : k' = k
    · subst hk
      have hnone : lastTruthyPair k' rest = none :=
        lastTruthyPair_none_of_not_mem k' rest hnotin
      simp only [lastTruthyPair, hnone, alookup, if_pos rfl, optTruthy]
      by_cases ht : v.truthy = true <;> simp [ht]
    · simp only [lastTruthyPair, alookup, hk, if_false]
      rw [ih hrest]
      cases ho : optTruthy (alookup k rest) with
      | some w => rfl
      | none => simp [hk]

theorem alookup_mergeResults_aux (k : String)
    (rs : List (List (String × JVal))) :
    ∀ acc, alookup k (rs.foldl mergeOne acc)
      = match lastTruthyAcrossP k rs with
        | some v => some v
        | none => alookup k acc := by
  induction rs with
  | nil => intro acc; rfl
  | cons data rest ih =>
    intro acc
    simp only [List.foldl_cons, lastTruthyAcrossP]
    rw [ih (mergeOne acc data), alookup_mergeOne k data acc]
    cases hr : lastTruthyAcrossP k rest with
    | some w => rfl
    | none => cases hp : lastTruthyPair k data <;> rfl

theorem lastTruthyAcrossP_eq (k : String) :
    ∀ rs, (∀ data ∈ rs, (data.map Prod.fst).Nodup) →
      lastTruthyAcrossP k rs = lastTruthyAcross k rs := by
  intro rs
  induction rs with
  | nil => intro _; rfl
  | cons data rest ih =>
    intro hn
    simp only [lastTruthyAcrossP, lastTruthyAcross]
    rw [ih (fun d hd => hn d (List.mem_cons_of_mem _ hd)),
        lastTruthyPair_eq_of_nodup k data (hn data (List.mem_cons_self _ _))]

theorem optTruthy_isSome_iff (o : Option JVal) :
    (optTruthy o).isSome = true ↔ ∃ v, o = some v ∧ v.truthy = true := by
  cases o with
  | none => simp [optTruthy]
  | some v => by_cases ht : v.truthy = true <;> simp [optTruthy, ht]

theorem lastTruthyAcross_isSome_iff (k : String)
    (rs : List (List (String × JVal))) :
    (lastTruthyAcross k rs).isSome = true ↔
      ∃ data ∈ rs, ∃ v, alookup k data = some v ∧ v.truthy = true := by
  induction rs with
  | nil => simp [lastTruthyAcross]
  | cons data rest ih =>
    simp only [lastTruthyAcross]
    cases hr : lastTruthyAcross k rest with
    | some w =>
      simp only [Option.isSome_some, true_iff]
      have hex := ih.mp (by rw [hr]; rfl)
      obtain ⟨d, hd, v, hv⟩ := hex
      exact ⟨d, List.mem_cons_of_mem _ hd, v, hv⟩
    | none =>
      rw [hr] at ih
      simp only [Option.isSome_none, Bool.false_eq_true, false_iff] at ih
      rw [optTruthy_isSome_iff]
      constructor
      · intro hex
        obtain ⟨v, hv, ht⟩ := hex
        exact ⟨data, List.mem_cons_self _ _, v, hv, ht⟩
      · intro hex
        obtain ⟨d, hd, v, hv, ht⟩ := hex
        rcases List.mem_cons.mp hd with hd1 | hd2
        · subst hd1
          exact ⟨v, hv, ht⟩
        · exact absurd ⟨d, hd2, v, hv, ht⟩ ih

/-- C4: in the merged context data, a key is present iff some producer
returned a truthy (non-empty) value for it, and the bound value is the
non-empty value of the last producer, in configured order, that
returned one (producer outputs are Python dicts, so their keys are
unique within one producer). -/
theorem merged_context_last_nonempty_wins
    (rs : List (List (String × JVal))) (k : String)
    (hn : ∀ data ∈ rs, (data.map Prod.fst).Nodup) :
    alookup k (mergeResults rs) = lastTruthyAcross k rs ∧
    ((alookup k (mergeResults rs)).isSome = true ↔
      ∃ data ∈ rs, ∃ v, alookup k data = some v ∧ v.truthy = true) := by
  have h1 : alookup k (mergeResults rs) = lastTruthyAcross k rs := by
    unfold mergeResults
    rw [alookup_mergeResults_aux k rs [], lastTruthyAcrossP_eq k rs hn]
    cases lastTruthyAcross k rs <;> rfl
  exact ⟨h1, h1 ▸ lastTruthyAcross_isSome_iff k rs⟩

/-- Two producer outputs: the first has a truthy `files` and a falsy
(empty-string) `readme`; the second overrides `files`. -/
def demoProducerOutputs : List (List (String × JVal)) :=
  [[("files", .jstr "dA"), ("readme", .jstr "")],
   [("files", .jstr "dB")]]

/-- Witness for C4 at the concrete producer outputs. -/
theorem merged_context_witness :
    (∀ data ∈ demoProducerOutputs, (data.map Prod.fst).Nodup) ∧
    alookup "files" (mergeResults demoProducerOutputs)
      = lastTruthyAcross "files" demoProducerOutputs :=
  ⟨by decide,
   (merged_context_last_nonempty_wins demoProducerOutputs "files"
      (by decide)).1⟩

/-!
## Claims C5 and C10 — when the pipeline touches the cache
-/

/-- C5: a streaming run, or a run whose aggregated context has no file
diffs, performs no cache read or write and leaves the store untouched,
while still invoking the provider; conversely any run that reads or
writes the cache is a non-streaming run with a non-empty file list. -/
theorem cache_bypass_streaming_or_no_diffs (cachePresent : Bool)
    (ttl now : Int) (store : CacheStore)
    (provider : Bool → ProviderResult) (files : List FileChange)
    (stream : Bool) :
    (stream = true ∨ files = [] →
       (generateRawMessage cachePresent ttl now store provider files
          stream).reads = [] ∧
       (generateRawMessage cachePresent ttl now store provider files
          stream).writes = [] ∧
       (generateRawMessage cachePresent ttl now store provider files
          stream).store = store ∧
       (generateRawMessage cachePresent ttl now store provider files
          stream).calls ≠ []) ∧
    ((generateRawMessage cachePresent ttl now store provider files
        stream).reads ≠ [] ∨
     (generateRawMessage cachePresent ttl now store provider files
        stream).writes ≠ [] →
       stream = false ∧ files ≠ []) := by
  cases stream with
  | true =>
    refine ⟨fun _ => ?_, fun h => ?_⟩
    · simp [generateRawMessage]
    · simp [generateRawMessage] at h
  | false =>
    by_cases hcp : cachePresent = true
    · by_cases hen : cacheEnabled ttl = true
      · cases files with
        | nil =>
          refine ⟨fun _ => ?_, fun h => ?_⟩
          · simp [generateRawMessage, hcp, hen]
          · simp [generateRawMessage, hcp, hen] at h
        | cons f fs =>
          refine ⟨fun h => ?_, fun _ => ⟨rfl, by simp⟩⟩
          simp at h
      · have hen2 : cacheEnabled ttl = false := by
          cases hb : cacheEnabled ttl
          · rfl
          · exact absurd hb hen
        refine ⟨fun _ => ?_, fun h => ?_⟩
        · simp [generateRawMessage, hcp, hen2]
        · simp [generateRawMessage, hcp, hen2] at h
    · have hcp2 : cachePresent = false := by
        cases hb : cachePresent
        · rfl
        · exact absurd hb hcp
      refine ⟨fun _ => ?_, fun h => ?_⟩
      · simp [generateRawMessage, hcp2]
      · simp [generateRawMessage, hcp2] at h

/-- A provider returning a chunk sequence when streaming and a plain
string otherwise. -/
def demoProvider : Bool → ProviderResult :=
  fun s => if s then .streamSeq ["fe", "at"] else .str "feat: add x"

/-- Witness for C5: a streaming run at a concrete store leaves it
untouched and calls the provider. -/
theorem cache_bypass_streaming_witness :
    (true = true ∨ ([] : List FileChange) = []) ∧
    (generateRawMessage true 60 0 staleStore demoProvider [] true).reads
        = [] ∧
    (generateRawMessage true 60 0 staleStore demoProvider [] true).writes
        = [] ∧
    (generateRawMessage true 60 0 staleStore demoProvider [] true).store
        = staleStore ∧
    (generateRawMessage true 60 0 staleStore demoProvider [] true).calls
        ≠ [] :=
  ⟨Or.inl rfl,
   (cache_bypass_streaming_or_no_diffs true 60 0 staleStore demoProvider
      [] true).1 (Or.inl rfl)⟩

/-- C10: when the record cached for the current diff content holds the
empty string, the non-streaming run treats it as a miss (`if
cached_message:` is falsy), invokes the provider live and returns the
provider's result, and a cache write happens only when that result is a
plain string. -/
theorem cached_empty_string_is_miss (ttl now : Int) (store : CacheStore)
    (provider : Bool → ProviderResult) (files : List FileChange)
    (entry : CacheRecord) (h : 0 < ttl) (hf : files ≠ [])
    (hlk : alookup (cacheKey (diffContent files)) store = some entry)
    (hv : entry.value = "") :
    (generateRawMessage true ttl now store provider files false).calls
        = [false] ∧
    (generateRawMessage true ttl now store provider files false).result
        = provider false ∧
    ((generateRawMessage true ttl now store provider files false).writes
        ≠ [] → ∃ s, provider false = .str s) := by
  have hen : cacheEnabled ttl = true := by
    unfold cacheEnabled
    exact decide_eq_true h
  cases files with
  | nil => exact absurd rfl hf
  | cons f fs =>
    have hmiss : strOptTruthy
        (cacheGet ttl now store (diffContent (f :: fs))).1 = false := by
      by_cases hexp : now - entry.timestamp > ttl
      · simp [cacheGet, hen, hlk, hexp, strOptTruthy]
      · simp [cacheGet, hen, hlk, hexp, strOptTruthy, hv]
    cases hp : provider false with
    | str s =>
      refine ⟨?_, ?_, fun _ => ⟨s, rfl⟩⟩ <;>
        simp [generateRawMessage, hen, hmiss, hp]
    | streamSeq cs =>
      refine ⟨?_, ?_, ?_⟩ <;>
        simp [generateRawMessage, hen, hmiss, hp]

/-- A store caching the empty string for the diff `+x`. -/
def emptyValueStore : CacheStore := [("+x", ⟨10, ""⟩)]

/-- The single file change used by the C10 witness. -/
def demoFile : FileChange := ⟨"a.py", "+x", none, none⟩

/-- Witness for C10 at a concrete store whose cached value is `""`. -/
theorem cached_empty_string_is_miss_witness :
    (0 : Int) < 60 ∧
    ([demoFile] ≠ ([] : List FileChange)) ∧
    alookup (cacheKey (diffContent [demoFile])) emptyValueStore
        = some ⟨10, ""⟩ ∧
    (generateRawMessage true 60 10 emptyValueStore demoProvider [demoFile]
        false).calls = [false] ∧
    (generateRawMessage true 60 10 emptyValueStore demoProvider [demoFile]
        false).result = demoProvider false :=
  ⟨by decide, by simp, rfl,
   (cached_empty_string_is_miss 60 10 emptyValueStore demoProvider
      [demoFile] ⟨10, ""⟩ (by decide) (by simp) rfl rfl).1,
   (cached_empty_string_is_miss 60 10 emptyValueStore demoProvider
      [demoFile] ⟨10, ""⟩ (by decide) (by simp) rfl rfl).2.1⟩

/-!
## Claim C3 — streaming decode

The claim as frozen says *every* malformed or unrecognized frame is
skipped.  The loop bodies only swallow `json.JSONDecodeError` and
`IndexError`; a `data:` payload that parses to a non-object (for
example a bare JSON number) makes `chunk.get(...)` raise
`AttributeError`, which escapes the generator and ends the stream
early.  The counterexample below exhibits this; the amended theorem
proves the claimed behaviour for the frames the decoders do skip.
-/

/-- A concrete model of `json.loads` for the C3 counterexample and
witness: a bare number, a Claude stop event, a Claude text delta, and
an OpenAI content chunk; everything else fails to decode. -/
def demoLoads : String → Option JVal
  | "notdict" => some (.jnum 5)
  | "stopfr" => some (.jobj [("type", .jstr "message_stop")])
  | "delta1" =>
    some (.jobj [("type", .jstr "content_block_delta"),
                 ("delta", .jobj [("type", .jstr "text_delta"),
                                  ("text", .jstr "Hello")])])
  | "openai1" =>
    some (.jobj [("choices",
                  .jarr [.jobj [("delta",
                                 .jobj [("content", .jstr "Hi")])]])])
  | _ => none

/-- C3 counterexample: a stream holding one malformed frame (valid
JSON, but a number rather than an event object) followed by the
terminal frame.  The claim says the malformed frame is skipped and the
decoder terminates having yielded nothing; the Claude decoder instead
crashes with the uncaught `AttributeError` and never reaches the
terminal frame. -/
theorem claude_nondict_frame_crashes :
    claudeProcessStream demoLoads ["data: notdict", "data: stopfr"]
      = ([], .crashed (.attributeError "get")) ∧
    claudeProcessStream demoLoads ["data: notdict", "data: stopfr"]
      ≠ ([], StreamOutcome.terminal) := by
  refine ⟨rfl, fun h => ?_⟩
  have h1 : claudeProcessStream demoLoads ["data: notdict", "data: stopfr"]
      = ([], .crashed (.attributeError "get")) := rfl
  have h2 := congrArg Prod.snd (h1.symm.trans h)
  simp only at h2
  cases h2

theorem claudeProcessStream_append (loads : String → Option JVal)
    (lines : List String) (term : String) (rest : List String)
    (hl : ∀ l ∈ lines, (claudeLineStep loads l).isSkipOrEmit = true)
    (ht : (claudeLineStep loads term).isStop = true) :
    claudeProcessStream loads (lines ++ term :: rest)
      = (lines.filterMap (fun l => (claudeLineStep loads l).emitted),
         .terminal) := by
  induction lines with
  | nil =>
    simp only [List.nil_append, List.filterMap_nil]
    cases hstep : claudeLineStep loads term with
    | stop => simp [claudeProcessStream, hstep]
    | skip => rw [hstep] at ht; simp [StreamClass.isStop] at ht
    | emit v => rw [hstep] at ht; simp [StreamClass.isStop] at ht
    | crash e => rw [hstep] at ht; simp [StreamClass.isStop] at ht
  | cons l ls ih =>
    have hl0 := hl l (List.mem_cons_self _ _)
    have hls : ∀ x ∈ ls, (claudeLineStep loads x).isSkipOrEmit = true :=
      fun x hx => hl x (List.mem_cons_of_mem _ hx)
    cases hstep : claudeLineStep loads l with
    | skip =>
      simp [claudeProcessStream, hstep, StreamClass.emitted, ih hls]
    | emit v =>
      simp [claudeProcessStream, hstep, StreamClass.emitted, ih hls]
    | stop => rw [hstep] at hl0; simp [StreamClass.isSkipOrEmit] at hl0
    | crash e => rw [hstep] at hl0; simp [StreamClass.isSkipOrEmit] at hl0

theorem openaiProcessStream_append (loads : String → Option JVal)
    (lines : List String) (term : String) (rest : List String)
    (hl : ∀ l ∈ lines, (openaiLineStep loads l).isSkipOrEmit = true)
    (ht : (openaiLineStep loads term).isStop = true) :
    openaiProcessStream loads (lines ++ term :: rest)
      = (lines.filterMap (fun l => (openaiLineStep loads l).emitted),
         .terminal) := by
  induction lines with
  | nil =>
    simp only [List.nil_append, List.filterMap_nil]
    cases hstep : openaiLineStep loads term with
    | stop => simp [openaiProcessStream, hstep]
    | skip => rw [hstep] at ht; simp [StreamClass.isStop] at ht
    | emit v => rw [hstep] at ht; simp [StreamClass.isStop] at ht
    | crash e => rw [hstep] at ht; simp [StreamClass.isStop] at ht
  | cons l ls ih =>
    have hl0 := hl l (List.mem_cons_self _ _)
    have hls : ∀ x ∈ ls, (openaiLineStep loads x).isSkipOrEmit = true :=
      fun x hx => hl x (List.mem_cons_of_mem _ hx)
    cases hstep : openaiLineStep loads l with
    | skip =>
      simp [openaiProcessStream, hstep, StreamClass.emitted, ih hls]
    | emit v =>
      simp [openaiProcessStream, hstep, StreamClass.emitted, ih hls]
    | stop => rw [hstep] at hl0; simp [StreamClass.isSkipOrEmit] at hl0
    | crash e => rw [hstep] at hl0; simp [StreamClass.isSkipOrEmit] at hl0

/-- C3 (amended): for both decoders, a stream of frames each of which
the loop body either skips (no data marker, empty payload, payload that
fails JSON decoding, or a parsed object without the recognized content
structure) or recognizes as content, terminated by the terminal frame
(`message_stop` for Claude, `[DONE]` for OpenAI), decodes to exactly
the content fragments of the content frames, in order of appearance,
then terminates, ignoring anything after the terminal frame; no
fragment is emitted twice.  (Frames whose parsed payload is a
non-object — or with wrongly typed nested fields — are *not* skipped:
they raise an uncaught error, see the counterexample.) -/
theorem stream_decoders_yield_fragments_in_order
    (loads : String → Option JVal)
    (clines crest olines orest : List String) (cterm oterm : String)
    (hc : ∀ l ∈ clines, (claudeLineStep loads l).isSkipOrEmit = true)
    (hct : (claudeLineStep loads cterm).isStop = true)
    (ho : ∀ l ∈ olines, (openaiLineStep loads l).isSkipOrEmit = true)
    (hot : (openaiLineStep loads oterm).isStop = true) :
    claudeProcessStream loads (clines ++ cterm :: crest)
      = (clines.filterMap (fun l => (claudeLineStep loads l).emitted),
         .terminal) ∧
    openaiProcessStream loads (olines ++ oterm :: orest)
      = (olines.filterMap (fun l => (openaiLineStep loads l).emitted),
         .terminal) :=
  ⟨claudeProcessStream_append loads clines cterm crest hc hct,
   openaiProcessStream_append loads olines oterm orest ho hot⟩

/-- Witness for C3's amended theorem: concrete Claude and OpenAI
streams with one content frame, one non-data line or undecodable frame,
the terminal frame, and trailing garbage after it. -/
theorem stream_decoders_witness :
    (∀ l ∈ ["data: delta1", "event: x", "data: badjson"],
        (claudeLineStep demoLoads l).isSkipOrEmit = true) ∧
    (claudeLineStep demoLoads "data: stopfr").isStop = true ∧
    (∀ l ∈ ["data: openai1", "data: badjson"],
        (openaiLineStep demoLoads l).isSkipOrEmit = true) ∧
    (openaiLineStep demoLoads "data: [DONE]").isStop = true ∧
    claudeProcessStream demoLoads
        (["data: delta1", "event: x", "data: badjson"]
          ++ "data: stopfr" :: ["data: delta1"])
      = ([.jstr "Hello"], .terminal) ∧
    openaiProcessStream demoLoads
        (["data: openai1", "data: badjson"] ++ "data: [DONE]" :: [])
      = ([.jstr "Hi"], .terminal) :=
  ⟨by decide, by decide, by decide, by decide,
   (stream_decoders_yield_fragments_in_order demoLoads
      ["data: delta1", "event: x", "data: badjson"] ["data: delta1"]
      ["data: openai1", "data: badjson"] [] "data: stopfr" "data: [DONE]"
      (by decide) (by decide) (by decide) (by decide)).1,
   (stream_decoders_yield_fragments_in_order demoLoads
      ["data: delta1", "event: x", "data: badjson"] ["data: delta1"]
      ["data: openai1", "data: badjson"] [] "data: stopfr" "data: [DONE]"
      (by decide) (by decide) (by decide) (by decide)).2⟩
